import Mathlib

/-!
Verification of the expense-dashboard ingestion, cache and view pipeline
(`src/dashboard.py`) against its natural-language specification.

The embedding works on lists of characters for all string processing, so
that every Python string primitive used by the source
(`str.replace`, `str.strip`, `str.lower`, `pd.to_numeric`, `pd.to_datetime`,
`strftime`) has an explicit, executable model here.  All definitions are
structurally recursive, so concrete runs of the pipeline reduce inside the
kernel.
-/

namespace Dashboard

/-- Model of Python `str.startswith`-style matching: `matchesAt p s` holds
when `p` is an initial segment of `s`. -/
def matchesAt (p s : List Char) : Bool :=
  match p, s with
  | [], _ => true
  | _ :: _, [] => false
  | a :: ps, b :: ss => a == b && matchesAt ps ss

/-- Fuel-indexed worker for `replaceL`.  Each step consumes at least one
character of `s`, so any `fuel ≥ s.length` computes the full replacement. -/
def replaceGo (p r : List Char) : Nat → List Char → List Char
  | _, [] => []
  | 0, s => s
  | fuel + 1, c :: rest =>
    if matchesAt p (c :: rest) ∧ p ≠ [] then
      r ++ replaceGo p r fuel ((c :: rest).drop p.length)
    else
      c :: replaceGo p r fuel rest

/-- Model of Python `str.replace` (as used by `pandas.Series.str.replace`
with `regex=False`): replace every non-overlapping occurrence of `p` by `r`,
scanning left to right. -/
def replaceL (p r s : List Char) : List Char :=
  replaceGo p r s.length s

/-- Whether `p` occurs anywhere in `s` as a contiguous segment. -/
def occursB (p : List Char) : List Char → Bool
  | [] => matchesAt p []
  | c :: rest => matchesAt p (c :: rest) || occursB p rest

/-- Model of Python `str.strip`: drop leading and trailing whitespace. -/
def stripChars (l : List Char) : List Char :=
  ((l.dropWhile (·.isWhitespace)).reverse.dropWhile (·.isWhitespace)).reverse

/-- ASCII model of Python `str.lower` (the header/status data the source
handles is cased only in the ASCII range). -/
def lowerChar (c : Char) : Char :=
  if 'A' ≤ c ∧ c ≤ 'Z' then Char.ofNat (c.toNat + 32) else c

/-- Lower-case a whole string. -/
def lowerS (s : String) : String :=
  ⟨s.toList.map lowerChar⟩

/-- Strip a whole string (Python `str.strip`). -/
def stripS (s : String) : String :=
  ⟨stripChars s.toList⟩

/-- Split on a separator character, Python `str.split(sep)` style. -/
def splitOnChar (sep : Char) : List Char → List (List Char)
  | [] => [[]]
  | c :: rest =>
    if c == sep then
      [] :: splitOnChar sep rest
    else
      match splitOnChar sep rest with
      | [] => [[c]]
      | h :: t => (c :: h) :: t

/-- Numeric value of a big-endian list of decimal digit characters. -/
def digitsToNat (l : List Char) : Nat :=
  l.foldl (fun a c => a * 10 + (c.toNat - 48)) 0

/-- Parse a non-empty all-digit character list as a natural number. -/
def parseNatChars (l : List Char) : Option Nat :=
  if l ≠ [] && l.all (·.isDigit) then some (digitsToNat l) else none

/-- Exact rational value of a signed decimal: integer part `ip`, fractional
part `fp` over `e` fractional digits. -/
def decValue (sign : ℚ) (ip fp : Nat) (e : Nat) : ℚ :=
  sign * ((ip : ℚ) + (fp : ℚ) / (10 : ℚ) ^ e)

/-- Digits with at most one decimal point and at least one digit, already
stripped of any sign. -/
def parseUnsigned (sign : ℚ) (body : List Char) : Option ℚ :=
  let intPart := body.takeWhile (·.isDigit)
  let rest := body.dropWhile (·.isDigit)
  match rest with
  | [] =>
    if intPart.isEmpty then none
    else some (decValue sign (digitsToNat intPart) 0 0)
  | '.' :: fracPart =>
    if fracPart.all (·.isDigit) && !(intPart.isEmpty && fracPart.isEmpty) then
      some (decValue sign (digitsToNat intPart) (digitsToNat fracPart) fracPart.length)
    else none
  | _ => none

/-- Model of the decimal fragment of `pandas.to_numeric` applied to a string:
an optional sign, then digits with at most one decimal point and at least one
digit; anything else fails (and `errors="coerce"` turns the failure into a
missing value).  The result is an exact rational. -/
def parseDecimalChars (s : List Char) : Option ℚ :=
  match s with
  | '-' :: rest => parseUnsigned (-1) rest
  | '+' :: rest => parseUnsigned 1 rest
  | _ => parseUnsigned 1 s

/-- Calendar date as stored in the `data` column after parsing. -/
structure Date where
  year : Nat
  month : Nat
  day : Nat
deriving DecidableEq, Repr

/-- Model of `pd.to_datetime(_, errors="coerce")` on the ISO `YYYY-MM-DD`
format (the format the source sheets carry); any unparseable cell becomes
the missing value `none` (pandas `NaT`). -/
def parseDate (s : String) : Option Date :=
  match splitOnChar '-' (stripChars s.toList) with
  | [ys, ms, ds] =>
    match parseNatChars ys, parseNatChars ms, parseNatChars ds with
    | some y, some m, some d =>
      if ys.length = 4 ∧ 1 ≤ m ∧ m ≤ 12 ∧ 1 ≤ d ∧ d ≤ 31 then
        some ⟨y, m, d⟩
      else none
    | _, _, _ => none
  | _ => none

/-- Cleaning chain of `dashboard.py` line 64: drop the `R$` marker, drop the
thousands dots, turn the decimal comma into a dot, strip whitespace. -/
def limpaValorChars (l : List Char) : List Char :=
  stripChars (replaceL [','] ['.'] (replaceL ['.'] [] (replaceL ['R', '$'] [] l)))

/-- Lines 64-65 of `dashboard.py`: clean the raw amount string, coerce to a
number, and fill parse failures with 0. -/
def parseValor (s : String) : ℚ :=
  (parseDecimalChars (limpaValorChars s.toList)).getD 0

/-- Lower-case then strip, as applied by line 52 to every column header and
by line 67 to every status cell. -/
def normHeader (s : String) : String :=
  stripS (lowerS s)

/-- Single decimal digit as a character. -/
def digitChar (d : Nat) : Char :=
  Char.ofNat (48 + d)

/-- Fuel-indexed decimal printer; `fuel ≥ n` always suffices. -/
def natCharsGo : Nat → Nat → List Char → List Char
  | 0, n, acc => digitChar n :: acc
  | fuel + 1, n, acc =>
    if n < 10 then digitChar n :: acc
    else natCharsGo fuel (n / 10) (digitChar (n % 10) :: acc)

/-- Decimal digit characters of a natural number, most significant first. -/
def natChars (n : Nat) : List Char :=
  natCharsGo n n []

/-- Zero-padded `%Y` field of `strftime`. -/
def pad4 (n : Nat) : List Char :=
  List.replicate (4 - (natChars n).length) '0' ++ natChars n

/-- Zero-padded `%m` field of `strftime`. -/
def pad2 (n : Nat) : List Char :=
  List.replicate (2 - (natChars n).length) '0' ++ natChars n

/-- The `%b` field of `strftime` under the engine's default (English / C)
locale, which is what `pandas.Series.dt.strftime` produces here. -/
def mesAbbrevEn (m : Nat) : List Char :=
  match m with
  | 1 => "Jan".toList
  | 2 => "Feb".toList
  | 3 => "Mar".toList
  | 4 => "Apr".toList
  | 5 => "May".toList
  | 6 => "Jun".toList
  | 7 => "Jul".toList
  | 8 => "Aug".toList
  | 9 => "Sep".toList
  | 10 => "Oct".toList
  | 11 => "Nov".toList
  | 12 => "Dec".toList
  | _ => []

/-- Model of `df["data"].dt.strftime("%Y-%m (%b)")` on a present date
(line 69). -/
def strftimeYmB (d : Date) : List Char :=
  pad4 d.year ++ ('-' :: (pad2 d.month ++ (' ' :: '(' :: (mesAbbrevEn d.month ++ [')']))))

/-- The explicit English-to-Portuguese month table of lines 70-73, in source
order. -/
def mapa_meses : List (List Char × List Char) :=
  [("Jan".toList, "Jan".toList), ("Feb".toList, "Fev".toList),
   ("Mar".toList, "Mar".toList), ("Apr".toList, "Abr".toList),
   ("May".toList, "Mai".toList), ("Jun".toList, "Jun".toList),
   ("Jul".toList, "Jul".toList), ("Aug".toList, "Ago".toList),
   ("Sep".toList, "Set".toList), ("Oct".toList, "Out".toList),
   ("Nov".toList, "Nov".toList), ("Dec".toList, "Dez".toList)]

/-- The substitution loop of lines 74-75: one `str.replace` per table entry,
applied to the whole label. -/
def traduzChars (l : List Char) : List Char :=
  mapa_meses.foldl (fun acc pr => replaceL pr.1 pr.2 acc) l

/-- Period label characters for a parsed date. -/
def mesAnoChars (d : Date) : List Char :=
  traduzChars (strftimeYmB d)

/-- Period label (`mes_ano` column) for a parsed date. -/
def mesAnoLabel (d : Date) : String :=
  ⟨mesAnoChars d⟩

/-- One fully processed row of the dataframe built by
`processar_e_salvar_planilha` (after lines 62-75). -/
structure Registro where
  data : Option Date
  descricao : String
  tipo_lancamento : String
  valor : String
  categoria : String
  status : String
  centro_custo : String
  valor_numerico : ℚ
  valor_abs : ℚ
  mes_ano : Option String
deriving DecidableEq, Repr

/-- A raw spreadsheet row: cells keyed by (original) column header. -/
abbrev RawRow := List (String × String)

/-- Cell lookup by normalized header name, mirroring column access on the
dataframe after line 52 renamed every header to its normalized form. -/
def getCell (r : RawRow) (c : String) : String :=
  ((r.find? (fun pr => normHeader pr.1 == c)).map Prod.snd).getD ""

/-- A raw spreadsheet as produced by `pd.read_excel`: a header row plus data
rows (cells already rendered as strings, as `astype(str)` would). -/
structure RawTable where
  cols : List String
  rows : List RawRow

/-- Line 54: the required headers. -/
def colunas_necessarias : List String :=
  ["data", "descrição", "tipo", "valor", "despesa", "status", "centro de custos"]

/-- Line 55: schema validation of the normalized headers. -/
def validarColunas (cols : List String) : Bool :=
  colunas_necessarias.all (fun c => cols.contains c)

/-- Line 62: the header renaming applied before persisting. -/
def renameCol (c : String) : String :=
  if c = "descrição" then "descricao"
  else if c = "despesa" then "categoria"
  else if c = "tipo" then "tipo_lancamento"
  else if c = "centro de custos" then "centro_custo"
  else c

/-- Columns of the persisted dataframe: every (normalized, renamed) source
column, then the three derived columns added by lines 64-69, in insertion
order.  (The model assumes the source sheet does not itself carry a column
named like a derived one, in which case pandas would overwrite instead of
append.) -/
def persistedCols (colsNorm : List String) : List String :=
  colsNorm.map renameCol ++ ["valor_numerico", "valor_abs", "mes_ano"]

/-- Lines 62-75 applied to one raw row: rename, parse the date, parse the
amount, normalize the status, derive the period label. -/
def mkRegistro (r : RawRow) : Registro :=
  let d := parseDate (getCell r "data")
  { data := d
    descricao := getCell r "descrição"
    tipo_lancamento := getCell r "tipo"
    valor := getCell r "valor"
    categoria := getCell r "despesa"
    status := stripS (lowerS (getCell r "status"))
    centro_custo := getCell r "centro de custos"
    valor_numerico := parseValor (getCell r "valor")
    valor_abs := parseValor (getCell r "valor")
    mes_ano := d.map mesAnoLabel }

/-- One persisted dashboard: its column list and its records. -/
structure Snapshot where
  cols : List String
  registros : List Registro
deriving DecidableEq

/-- The cache directory: `none` models an absent storage root (`CACHE_DIR`
does not exist); `some files` models the root holding the named parquet
files. -/
abbrev Store := Option (List (String × Snapshot))

/-- Lines 37-44: list saved dashboards; an absent root yields `[]` and is
never created; otherwise the names are returned sorted. -/
def get_lista_dashboards_salvos (s : Store) : List String :=
  match s with
  | none => []
  | some files => (files.map Prod.fst).insertionSort (· ≤ ·)

/-- `df.to_parquet` at line 80: overwrite the file of that name; raises (here
`none`) when the root is absent, since the code never creates the root. -/
def writeSnapshot (s : Store) (nome : String) (snap : Snapshot) : Option Store :=
  match s with
  | none => none
  | some files => some (some ((files.filter (fun pr => !(pr.1 == nome))) ++ [(nome, snap)]))

/-- `pd.read_parquet` at line 114: `none` models `FileNotFoundError`. -/
def readSnapshot (s : Store) (nome : String) : Option Snapshot :=
  match s with
  | none => none
  | some files => (files.find? (fun pr => pr.1 == nome)).map Prod.snd

/-- Result of the delete button handler (line 119 `os.remove`, with the
`FileNotFoundError` handler of lines 178-179 turning an absent file into a
reported, recoverable error). -/
inductive DeleteResult where
  | ok (s : Store)
  | notFound
deriving DecidableEq

/-- Deleting a named snapshot. -/
def deleteSnapshot (s : Store) (nome : String) : DeleteResult :=
  match s with
  | none => .notFound
  | some files =>
    if files.any (fun pr => pr.1 == nome) then
      .ok (some (files.filter (fun pr => !(pr.1 == nome))))
    else
      .notFound

/-- Outcome of `processar_e_salvar_planilha`: success, schema failure with
the column list printed by the `st.error` call of line 56, or the storage
failure caught by the generic handler of lines 83-85.  Each failure carries
the (unchanged) store. -/
inductive IngestOutcome where
  | ok (store : Store)
  | schemaError (reportado : List String) (store : Store)
  | storageError (store : Store)
deriving DecidableEq

/-- The store after an ingestion attempt. -/
def storeOf : IngestOutcome → Store
  | .ok s => s
  | .schemaError _ s => s
  | .storageError _ => none

/-- Lines 46-85: normalize headers, validate the schema, build the records,
keep only expense rows with a present date, and persist under the given
name.  The storage root is never created. -/
def processar_e_salvar_planilha (store : Store) (nome_base : String) (t : RawTable) : IngestOutcome :=
  let colsNorm := t.cols.map normHeader
  if validarColunas colsNorm then
    let regs := t.rows.map mkRegistro
    let despesas :=
      (regs.filter (fun r => lowerS r.tipo_lancamento == "despesa")).filter
        (fun r => r.data.isSome)
    match writeSnapshot store nome_base ⟨persistedCols colsNorm, despesas⟩ with
    | some store2 => .ok store2
    | none => .storageError store
  else
    .schemaError colunas_necessarias store

/-- Lines 130-133: the three sidebar filters, applied in source order; a
selection containing the sentinel (`"Todas"` / `"Todos"`) leaves that
dimension unconstrained. -/
def df_filtrado (rows : List Registro) (cats : List String) (stat : String) (ccs : List String) :
    List Registro :=
  let r1 := if cats.contains "Todas" then rows else rows.filter (fun r => cats.contains r.categoria)
  let r2 := if stat == "Todos" then r1 else r1.filter (fun r => r.status == stat)
  if ccs.contains "Todos" then r2 else r2.filter (fun r => ccs.contains r.centro_custo)

/-- Group keys in pandas `groupby(sort=True)` order: the distinct keys,
sorted. -/
def chavesOrdenadas (key : Registro → String) (rows : List Registro) : List String :=
  ((rows.foldl (fun acc r => if acc.contains (key r) then acc else acc ++ [key r]) []).insertionSort
    (· ≤ ·))

/-- Sum of `valor_abs` over the rows with the given key. -/
def somaPor (key : Registro → String) (rows : List Registro) (k : String) : ℚ :=
  (rows.filter (fun r => key r == k)).foldl (fun a r => a + r.valor_abs) 0

/-- `groupby(key)["valor_abs"].sum()` with default `sort=True`. -/
def groupbySum (key : Registro → String) (rows : List Registro) : List (String × ℚ) :=
  (chavesOrdenadas key rows).map (fun k => (k, somaPor key rows k))

/-- Line 159: `groupby("categoria")["valor_abs"].sum().nlargest(10)
.sort_values(ascending=False)` — a stable descending sort by total, truncated
to ten groups (the final `sort_values` re-sorts an already descending list
and is the identity). -/
def top_categorias (rows : List Registro) : List (String × ℚ) :=
  ((groupbySum (fun r => r.categoria) rows).insertionSort (fun a b => b.2 ≤ a.2)).take 10

/-- Line 135: the grand total of the filtered view. -/
def total_despesas (rows : List Registro) : ℚ :=
  rows.foldl (fun a r => a + r.valor_abs) 0

/-! ### Facts about the string-replacement model -/

/-- A character list with no alphabetic characters (digits, punctuation,
whitespace). -/
def cleanL (l : List Char) : Prop :=
  ∀ c ∈ l, c.isAlpha = false

theorem replaceGo_fuel (p r : List Char) :
    ∀ fuel s, s.length ≤ fuel → replaceGo p r fuel s = replaceL p r s := by
  intro fuel
  induction fuel using Nat.strong_induction_on with
  | _ fuel ih =>
    intro s hs
    match fuel, s with
    | 0, s =>
      interval_cases hl : s.length
      · rw [List.length_eq_zero] at hl
        subst hl
        rfl
    | fuel + 1, [] => rfl
    | fuel + 1, c :: rest =>
      show _ = replaceGo p r (rest.length + 1) (c :: rest)
      simp only [replaceGo]
      split
      · rename_i hcond
        have hp : 1 ≤ p.length := by
          cases hq : p with
          | nil => exact absurd hq hcond.2
          | cons q ps => simp
        have hlen : ((c :: rest).drop p.length).length ≤ rest.length := by
          simp only [List.length_drop, List.length_cons]
          omega
        have h1 : rest.length + 1 ≤ fuel + 1 := hs
        rw [ih fuel (by omega) _ (by omega),
          ih rest.length (by omega) _ (by omega)]
      · have h1 : rest.length + 1 ≤ fuel + 1 := hs
        rw [ih fuel (by omega) rest (by omega),
          ih rest.length (by omega) rest (by omega)]

theorem replaceL_cons_neg {p : List Char} (r : List Char) {c : Char} {s : List Char}
    (h : ¬(matchesAt p (c :: s) = true ∧ p ≠ [])) :
    replaceL p r (c :: s) = c :: replaceL p r s := by
  show replaceGo p r (s.length + 1) (c :: s) = _
  simp only [replaceGo, if_neg h]
  rw [replaceGo_fuel p r s.length s le_rfl]

theorem replaceL_cons_pos {p : List Char} (r : List Char) {c : Char} {s : List Char}
    (hm : matchesAt p (c :: s) = true) (hp : p ≠ []) :
    replaceL p r (c :: s) = r ++ replaceL p r ((c :: s).drop p.length) := by
  show replaceGo p r (s.length + 1) (c :: s) = _
  simp only [replaceGo, if_pos (And.intro hm hp)]
  congr 1
  apply replaceGo_fuel
  have hp1 : 1 ≤ p.length := by
    cases hq : p with
    | nil => exact absurd hq hp
    | cons q ps => simp
  simp only [List.length_drop, List.length_cons]
  omega

/-- A replacement whose pattern starts with a character absent from `a`
passes over `a` untouched. -/
theorem replaceL_append_skip {q : Char} {ps : List Char} (r : List Char) {a : List Char}
    (ha : ∀ c ∈ a, (q == c) = false) (t : List Char) :
    replaceL (q :: ps) r (a ++ t) = a ++ replaceL (q :: ps) r t := by
  induction a with
  | nil => rfl
  | cons c a2 ih =>
    have hqc : (q == c) = false := ha c (by simp)
    have hmatch : matchesAt (q :: ps) (c :: (a2 ++ t)) = false := by
      simp only [matchesAt, hqc, Bool.false_and]
    rw [List.cons_append, replaceL_cons_neg r (by simp [hmatch]),
      ih (fun c hc => ha c (by simp [hc])), List.cons_append]

/-- A replacement whose pattern starts with a character absent from `s`
leaves `s` unchanged. -/
theorem replaceL_skip_all {q : Char} {ps : List Char} (r : List Char) {s : List Char}
    (hs : ∀ c ∈ s, (q == c) = false) :
    replaceL (q :: ps) r s = s := by
  have h := @replaceL_append_skip q ps r s hs ([] : List Char)
  have h2 : replaceL (q :: ps) r [] = [] := rfl
  simpa [h2] using h

theorem matchesAt_self_append (p b : List Char) : matchesAt p (p ++ b) = true := by
  induction p with
  | nil => rfl
  | cons q ps ih => simp [matchesAt, ih]

/-- A replacement fires exactly at an occurrence of its pattern. -/
theorem replaceL_fire {q : Char} {ps : List Char} (r b : List Char) :
    replaceL (q :: ps) r ((q :: ps) ++ b) = r ++ replaceL (q :: ps) r b := by
  rw [List.cons_append,
    replaceL_cons_pos r (by rw [← List.cons_append]; exact matchesAt_self_append _ b) (by simp)]
  congr 1
  rw [← List.cons_append, List.drop_left]

/-! ### Facts about the period label -/

theorem digitChar_not_alpha {d : Nat} (hd : d < 10) : (digitChar d).isAlpha = false := by
  interval_cases d <;> decide

theorem natCharsGo_clean :
    ∀ fuel n acc, n ≤ fuel → (∀ c ∈ acc, c.isAlpha = false) →
      ∀ c ∈ natCharsGo fuel n acc, c.isAlpha = false := by
  intro fuel
  induction fuel with
  | zero =>
    intro n acc hn hacc c hc
    interval_cases n
    simp only [natCharsGo] at hc
    rcases List.mem_cons.mp hc with rfl | hc
    · decide
    · exact hacc c hc
  | succ f ih =>
    intro n acc hn hacc c hc
    by_cases h10 : n < 10
    · simp only [natCharsGo, if_pos h10] at hc
      rcases List.mem_cons.mp hc with rfl | hc
      · exact digitChar_not_alpha h10
      · exact hacc c hc
    · simp only [natCharsGo, if_neg h10] at hc
      refine ih (n / 10) _ ?_ ?_ c hc
      · have := Nat.div_lt_self (by omega : 0 < n) (by omega : 1 < 10)
        omega
      · intro c2 hc2
        rcases List.mem_cons.mp hc2 with rfl | hc2
        · exact digitChar_not_alpha (Nat.mod_lt n (by omega))
        · exact hacc c2 hc2

theorem pad4_clean (n : Nat) : cleanL (pad4 n) := by
  intro c hc
  simp only [pad4, List.mem_append] at hc
  rcases hc with hc | hc
  · rw [List.eq_of_mem_replicate hc]; decide
  · exact natCharsGo_clean n n [] le_rfl (by simp) c hc

/-- Replacing with every pattern of an alphabetic-headed table passes over a
non-alphabetic block. -/
theorem foldl_replace_append (ms : List (List Char × List Char))
    (hms : ∀ pr ∈ ms, ∃ q ps, pr.1 = q :: ps ∧ q.isAlpha = true)
    {a : List Char} (ha : cleanL a) (w : List Char) :
    ms.foldl (fun acc pr => replaceL pr.1 pr.2 acc) (a ++ w) =
      a ++ ms.foldl (fun acc pr => replaceL pr.1 pr.2 acc) w := by
  induction ms generalizing w with
  | nil => rfl
  | cons m ms ih =>
    obtain ⟨q, ps, hq, halpha⟩ := hms m (by simp)
    have hstep : replaceL m.1 m.2 (a ++ w) = a ++ replaceL m.1 m.2 w := by
      rw [hq]
      refine replaceL_append_skip _ (fun c hc => ?_) w
      have hc2 := ha c hc
      rw [beq_eq_false_iff_ne]
      intro hqc
      rw [hqc, hc2] at halpha
      exact Bool.false_ne_true halpha
    simp only [List.foldl_cons, hstep]
    exact ih (fun pr hpr => hms pr (by simp [hpr])) _

/-- The non-alphabetic block of a strftime label also passes through the
whole month-substitution loop untouched. -/
theorem traduzChars_append {a : List Char} (ha : cleanL a) (w : List Char) :
    traduzChars (a ++ w) = a ++ traduzChars w := by
  refine foldl_replace_append mapa_meses ?_ ha w
  intro pr hpr
  fin_cases hpr <;> exact ⟨_, _, rfl, by decide⟩

/-- The target-locale month table the spec describes: month number to
Portuguese abbreviation. -/
def mesAbbrevPt (m : Nat) : List Char :=
  match m with
  | 1 => "Jan".toList
  | 2 => "Fev".toList
  | 3 => "Mar".toList
  | 4 => "Abr".toList
  | 5 => "Mai".toList
  | 6 => "Jun".toList
  | 7 => "Jul".toList
  | 8 => "Ago".toList
  | 9 => "Set".toList
  | 10 => "Out".toList
  | 11 => "Nov".toList
  | 12 => "Dez".toList
  | _ => []

set_option maxHeartbeats 1600000 in
/-- On every valid month, the substitution loop turns an English strftime
label into the corresponding Portuguese one. -/
theorem traduz_label (y m : Nat) (h1 : 1 ≤ m) (h2 : m ≤ 12) :
    traduzChars (pad4 y ++ ('-' :: (pad2 m ++ (' ' :: '(' :: (mesAbbrevEn m ++ [')']))))) =
      pad4 y ++ ('-' :: (pad2 m ++ (' ' :: '(' :: (mesAbbrevPt m ++ [')'])))) := by
  interval_cases m <;>
    (rw [traduzChars_append (pad4_clean y)]; exact congrArg _ (by decide))

/-- On every valid month, the period label is the Portuguese
`YYYY-MM (Mon)` string. -/
theorem mesAnoChars_eq (d : Date) (h1 : 1 ≤ d.month) (h2 : d.month ≤ 12) :
    mesAnoChars d =
      pad4 d.year ++ ('-' :: (pad2 d.month ++ (' ' :: '(' :: (mesAbbrevPt d.month ++ [')'])))) := by
  obtain ⟨y, m, dd⟩ := d
  exact traduz_label y m h1 h2

/-- A date accepted by the parser has a calendar month. -/
theorem parseDate_month_bounds {s : String} {d : Date} (h : parseDate s = some d) :
    1 ≤ d.month ∧ d.month ≤ 12 := by
  unfold parseDate at h
  split at h
  · split at h
    · split at h
      · rename_i hcond
        injection h with h2
        subst h2
        exact ⟨hcond.2.1, hcond.2.2.1⟩
      · exact absurd h (by simp)
    all_goals exact absurd h (by simp)
  · exact absurd h (by simp)

/-! ### Facts about the amount parser -/

theorem dropWhile_eq_self_of_all {p : Char → Bool} {l : List Char}
    (h : ∀ c ∈ l, p c = false) : l.dropWhile p = l := by
  cases l with
  | nil => rfl
  | cons c t => simp [List.dropWhile_cons, h c (by simp)]

theorem takeWhile_eq_self_of_all {p : Char → Bool} {l : List Char}
    (h : ∀ c ∈ l, p c = true) : l.takeWhile p = l := by
  induction l with
  | nil => rfl
  | cons c t ih =>
    simp only [List.takeWhile_cons, h c (by simp), if_true]
    rw [ih (fun c hc => h c (by simp [hc]))]

theorem dropWhile_eq_nil_of_all {p : Char → Bool} {l : List Char}
    (h : ∀ c ∈ l, p c = true) : l.dropWhile p = [] := by
  induction l with
  | nil => rfl
  | cons c t ih =>
    simp only [List.dropWhile_cons, h c (by simp), if_true]
    exact ih (fun c hc => h c (by simp [hc]))

theorem stripChars_eq_self {l : List Char} (h : ∀ c ∈ l, c.isWhitespace = false) :
    stripChars l = l := by
  unfold stripChars
  rw [dropWhile_eq_self_of_all h,
    dropWhile_eq_self_of_all (fun c hc => h c (List.mem_reverse.mp hc)),
    List.reverse_reverse]

/-- The unsigned decimal parser on an all-digit body. -/
theorem parseUnsigned_digits {body : List Char} (sign : ℚ) (hne : body ≠ [])
    (hdig : ∀ c ∈ body, c.isDigit = true) :
    parseUnsigned sign body = some (decValue sign (digitsToNat body) 0 0) := by
  simp only [parseUnsigned, takeWhile_eq_self_of_all hdig, dropWhile_eq_nil_of_all hdig]
  rw [if_neg]
  simp [List.isEmpty_iff, hne]

/-- The decimal parser on an all-digit string. -/
theorem parseDecimalChars_digits {l : List Char} (hne : l ≠ [])
    (hdig : ∀ c ∈ l, c.isDigit = true) :
    parseDecimalChars l = some (decValue 1 (digitsToNat l) 0 0) := by
  cases l with
  | nil => exact absurd rfl hne
  | cons c rest =>
    have hc : c.isDigit = true := hdig c (by simp)
    unfold parseDecimalChars
    split
    · rename_i heq
      injection heq with h1 h2
      subst h1
      exact absurd hc (by decide)
    · rename_i heq
      injection heq with h1 h2
      subst h1
      exact absurd hc (by decide)
    · exact parseUnsigned_digits 1 (by simp) hdig

/-- A single dot between two dot-free blocks is removed by the
thousands-separator replacement. -/
theorem replaceL_dot (a b : List Char) (ha : ∀ c ∈ a, ('.' == c) = false)
    (hb : ∀ c ∈ b, ('.' == c) = false) :
    replaceL ['.'] [] (a ++ '.' :: b) = a ++ b := by
  rw [replaceL_append_skip _ ha]
  have h := @replaceL_fire '.' [] [] b
  simp only [List.singleton_append, List.nil_append] at h
  rw [h, replaceL_skip_all _ hb]

/-! ### Facts about the cache store -/

theorem find?_append_none {α : Type} (l1 l2 : List α) (p : α → Bool)
    (h : l1.find? p = none) : (l1 ++ l2).find? p = l2.find? p := by
  induction l1 with
  | nil => rfl
  | cons a t ih =>
    cases hpa : p a with
    | true => simp [List.find?, hpa] at h
    | false =>
      simp only [List.find?, hpa] at h
      simp only [List.cons_append, List.find?, hpa]
      exact ih h

/-- Reading back immediately after a write returns the written snapshot. -/
theorem readSnapshot_write (files : List (String × Snapshot)) (nome : String) (snap : Snapshot) :
    readSnapshot (some ((files.filter (fun pr => !(pr.1 == nome))) ++ [(nome, snap)])) nome =
      some snap := by
  simp only [readSnapshot]
  have h1 : (files.filter (fun pr => !(pr.1 == nome))).find? (fun pr => pr.1 == nome) = none := by
    rw [List.find?_eq_none]
    intro x hx
    have h2 := (List.mem_filter.mp hx).2
    simp only [Bool.not_eq_true'] at h2
    simp [h2]
  rw [find?_append_none _ _ _ h1]
  simp [List.find?]

/-- A successful ingest presupposes a present storage root and a valid
schema, and writes exactly the filtered record set under the persisted
column set. -/
theorem processar_ok (store : Store) (nome : String) (t : RawTable) (store2 : Store)
    (hok : processar_e_salvar_planilha store nome t = .ok store2) :
    ∃ files, store = some files ∧
      validarColunas (t.cols.map normHeader) = true ∧
      store2 = some ((files.filter (fun pr => !(pr.1 == nome))) ++
        [(nome, ⟨persistedCols (t.cols.map normHeader),
          ((t.rows.map mkRegistro).filter
            (fun r => lowerS r.tipo_lancamento == "despesa")).filter
            (fun r => r.data.isSome)⟩)]) := by
  simp only [processar_e_salvar_planilha] at hok
  split at hok
  · rename_i hval
    split at hok
    · rename_i s2 hw
      injection hok with h2
      subst h2
      cases store with
      | none => simp [writeSnapshot] at hw
      | some files =>
        simp only [writeSnapshot] at hw
        injection hw with hw2
        exact ⟨files, rfl, hval, hw2.symm⟩
    · exact absurd hok (by simp)
  · exact absurd hok (by simp)

/-- The snapshot read back under the ingested name is the filtered record
set just written. -/
theorem processar_ok_read (store : Store) (nome : String) (t : RawTable) (store2 : Store)
    (hok : processar_e_salvar_planilha store nome t = .ok store2)
    (snap : Snapshot) (hread : readSnapshot store2 nome = some snap) :
    validarColunas (t.cols.map normHeader) = true ∧
      snap = ⟨persistedCols (t.cols.map normHeader),
        ((t.rows.map mkRegistro).filter
          (fun r => lowerS r.tipo_lancamento == "despesa")).filter
          (fun r => r.data.isSome)⟩ := by
  obtain ⟨files, _, hval, hs2⟩ := processar_ok store nome t store2 hok
  subst hs2
  rw [readSnapshot_write] at hread
  injection hread with h3
  exact ⟨hval, h3.symm⟩

/-! ### The claims -/

/-- C1: after a successful ingest, every record of the snapshot read back
under that name has an entry type that case-insensitively equals "despesa"
and a present (successfully parsed) date; nothing else is persisted. -/
theorem c1_read_after_ingest_expense_only (store : Store) (nome : String) (t : RawTable)
    (store2 : Store) (hok : processar_e_salvar_planilha store nome t = .ok store2)
    (snap : Snapshot) (hread : readSnapshot store2 nome = some snap)
    (r : Registro) (hmem : r ∈ snap.registros) :
    lowerS r.tipo_lancamento = "despesa" ∧ r.data ≠ none := by
  obtain ⟨hval, hsnap⟩ := processar_ok_read store nome t store2 hok snap hread
  subst hsnap
  have hm2 := List.mem_filter.mp hmem
  have hm3 := List.mem_filter.mp hm2.1
  constructor
  · exact eq_of_beq hm3.2
  · exact Option.isSome_iff_ne_none.mp hm2.2

/-- Demonstration upload: one expense row and one income row. -/
def demoRow : RawRow :=
  [("Data", "2024-03-15"), ("Descrição", "mercado"), ("Tipo", "Despesa"),
   ("Valor", "R$ 1.234,56"), ("Despesa", "alimentação"), ("Status", " Pago "),
   ("Centro de Custos", "casa")]

/-- An income row, dropped by the expense filter. -/
def demoRowReceita : RawRow :=
  [("Data", "2024-03-16"), ("Descrição", "salário"), ("Tipo", "Receita"),
   ("Valor", "R$ 2.000,00"), ("Despesa", ""), ("Status", "Pago"),
   ("Centro de Custos", "casa")]

/-- A schema-complete two-row upload. -/
def demoTable : RawTable :=
  ⟨["Data", "Descrição", "Tipo", "Valor", "Despesa", "Status", "Centro de Custos"],
   [demoRow, demoRowReceita]⟩

/-- The columns the pipeline persists for a sheet with exactly the required
headers. -/
def demoCols : List String :=
  ["data", "descricao", "tipo_lancamento", "valor", "categoria", "status",
   "centro_custo", "valor_numerico", "valor_abs", "mes_ano"]

/-- The record persisted for `demoRow`. -/
def demoReg : Registro :=
  { data := some ⟨2024, 3, 15⟩
    descricao := "mercado"
    tipo_lancamento := "Despesa"
    valor := "R$ 1.234,56"
    categoria := "alimentação"
    status := "pago"
    centro_custo := "casa"
    valor_numerico := parseValor "R$ 1.234,56"
    valor_abs := parseValor "R$ 1.234,56"
    mes_ano := some (mesAnoLabel ⟨2024, 3, 15⟩) }

/-- The snapshot persisted for `demoTable`. -/
def demoSnap : Snapshot := ⟨demoCols, [demoReg]⟩

/-- The store after ingesting `demoTable` into an empty root. -/
def demoStoreAfter : Store := some [("x", demoSnap)]

/-- Witness for C1: a concrete ingest of `demoTable` followed by a read. -/
theorem c1_read_after_ingest_expense_only_witness :
    lowerS demoReg.tipo_lancamento = "despesa" ∧ demoReg.data ≠ none :=
  c1_read_after_ingest_expense_only (some []) "x" demoTable demoStoreAfter rfl demoSnap rfl
    demoReg (List.mem_singleton.mpr rfl)

/-- C2 (amended): ingesting a raw input whose normalized headers miss a
required column fails, reports the full required-header list (not the list
of missing headers), and leaves the store — hence the saved-dashboard
listing — unchanged. -/
theorem c2_missing_column_rejected (store : Store) (nome : String) (t : RawTable)
    (hmiss : validarColunas (t.cols.map normHeader) = false) :
    processar_e_salvar_planilha store nome t = .schemaError colunas_necessarias store ∧
      storeOf (processar_e_salvar_planilha store nome t) = store ∧
      get_lista_dashboards_salvos (storeOf (processar_e_salvar_planilha store nome t)) =
        get_lista_dashboards_salvos store := by
  have h : processar_e_salvar_planilha store nome t = .schemaError colunas_necessarias store := by
    simp [processar_e_salvar_planilha, hmiss]
  refine ⟨h, ?_, ?_⟩ <;> (rw [h]; rfl)

/-- A sheet missing exactly the `status` column. -/
def demoTableNoStatus : RawTable :=
  ⟨["Data", "Descrição", "Tipo", "Valor", "Despesa", "Centro de Custos"], []⟩

/-- C2 counterexample: for an upload missing exactly `status`, the missing
list is `["status"]` but the failure reports the full required-header list,
which differs from it. -/
theorem c2_counterexample :
    processar_e_salvar_planilha (some []) "x" demoTableNoStatus =
      .schemaError colunas_necessarias (some []) ∧
    (colunas_necessarias.filter
      (fun c => !((demoTableNoStatus.cols.map normHeader).contains c))) = ["status"] ∧
    colunas_necessarias ≠ ["status"] := by
  refine ⟨by decide, by decide, by decide⟩

/-- Witness for C2 at the concrete `status`-less sheet, over a non-empty
store. -/
theorem c2_missing_column_rejected_witness :
    processar_e_salvar_planilha demoStoreAfter "y" demoTableNoStatus =
      .schemaError colunas_necessarias demoStoreAfter ∧
      storeOf (processar_e_salvar_planilha demoStoreAfter "y" demoTableNoStatus) =
        demoStoreAfter ∧
      get_lista_dashboards_salvos
          (storeOf (processar_e_salvar_planilha demoStoreAfter "y" demoTableNoStatus)) =
        get_lista_dashboards_salvos demoStoreAfter :=
  c2_missing_column_rejected demoStoreAfter "y" demoTableNoStatus (by decide)

/-- A schema-complete upload with no data rows. -/
def demoTableEmptyRows : RawTable :=
  ⟨["Data", "Descrição", "Tipo", "Valor", "Despesa", "Status", "Centro de Custos"], []⟩

/-- C5 counterexample: the snapshot persisted for a concrete valid upload
keeps the entry-type discriminator (`tipo_lancamento`) and the raw amount
column (`valor`), and carries ten columns, not the seven the claim allows. -/
theorem c5_counterexample :
    readSnapshot (storeOf (processar_e_salvar_planilha (some []) "x" demoTableEmptyRows)) "x" =
      some ⟨demoCols, []⟩ ∧
    "tipo_lancamento" ∈ demoCols ∧ "valor" ∈ demoCols ∧ demoCols.length ≠ 7 := by
  refine ⟨by decide, by decide, by decide, by decide⟩

/-- C5 (amended): the persisted column set is every normalized-and-renamed
source column followed by the derived `valor_numerico`, `valor_abs` and
`mes_ano`; the renamed forms of all required columns — including the raw
amount column and the entry-type discriminator — are all present. -/
theorem c5_persisted_columns (store : Store) (nome : String) (t : RawTable) (store2 : Store)
    (hok : processar_e_salvar_planilha store nome t = .ok store2)
    (snap : Snapshot) (hread : readSnapshot store2 nome = some snap) :
    snap.cols =
      (t.cols.map normHeader).map renameCol ++ ["valor_numerico", "valor_abs", "mes_ano"] ∧
    (∀ c ∈ colunas_necessarias, renameCol c ∈ snap.cols) ∧
    "valor_numerico" ∈ snap.cols ∧ "valor_abs" ∈ snap.cols ∧ "mes_ano" ∈ snap.cols := by
  obtain ⟨hval, hsnap⟩ := processar_ok_read store nome t store2 hok snap hread
  subst hsnap
  refine ⟨rfl, ?_, by simp [persistedCols], by simp [persistedCols], by simp [persistedCols]⟩
  intro c hc
  have hmem : c ∈ t.cols.map normHeader := by
    have h2 := List.all_eq_true.mp hval c hc
    simpa [List.contains_eq_any_beq, List.any_eq_true, eq_comm] using h2
  simp only [persistedCols, List.mem_append]
  exact Or.inl (List.mem_map_of_mem renameCol hmem)

/-- Witness for C5 at a concrete schema-complete upload. -/
theorem c5_persisted_columns_witness :
    demoSnap.cols =
      (demoTable.cols.map normHeader).map renameCol ++
        ["valor_numerico", "valor_abs", "mes_ano"] ∧
    (∀ c ∈ colunas_necessarias, renameCol c ∈ demoSnap.cols) ∧
    "valor_numerico" ∈ demoSnap.cols ∧ "valor_abs" ∈ demoSnap.cols ∧
      "mes_ano" ∈ demoSnap.cols :=
  c5_persisted_columns (some []) "x" demoTable demoStoreAfter rfl demoSnap rfl

/-- C6: with the storage root absent, listing yields the empty sequence,
writing fails, every ingest outcome leaves the root absent (no operation
creates it), and deleting reports not-found. -/
theorem c6_absent_root (nome : String) (snap : Snapshot) (t : RawTable) :
    get_lista_dashboards_salvos none = [] ∧
    writeSnapshot none nome snap = none ∧
    (processar_e_salvar_planilha none nome t = .schemaError colunas_necessarias none ∨
      processar_e_salvar_planilha none nome t = .storageError none) ∧
    storeOf (processar_e_salvar_planilha none nome t) = none ∧
    deleteSnapshot none nome = .notFound := by
  refine ⟨rfl, rfl, ?_, ?_, rfl⟩
  · by_cases h : validarColunas (t.cols.map normHeader)
    · right; simp [processar_e_salvar_planilha, h, writeSnapshot]
    · left; simp [processar_e_salvar_planilha, h]
  · by_cases h : validarColunas (t.cols.map normHeader) <;>
      simp [processar_e_salvar_planilha, h, writeSnapshot, storeOf]

/-- C3: the amount parser strips the `R$` marker, strips the thousands
dots, converts the decimal comma to a dot, trims whitespace, and parses the
result, substituting 0 on failure; `"R$ 1.234,56"` parses to `1234.56`,
`"abc"` to `0` and the empty string to `0`. -/
theorem c3_currency_parsing :
    (∀ s : String, parseValor s =
      (parseDecimalChars (stripChars (replaceL [','] ['.']
        (replaceL ['.'] [] (replaceL ['R', '$'] [] s.toList))))).getD 0) ∧
    parseValor "R$ 1.234,56" = 1234.56 ∧ parseValor "abc" = 0 ∧ parseValor "" = 0 := by
  refine ⟨fun s => rfl, ?_, rfl, rfl⟩
  have h : parseValor "R$ 1.234,56" = decValue 1 1234 56 2 := rfl
  rw [h]
  norm_num [decValue]

/-- C4: every successfully parsed date yields the `YYYY-MM (Mon)` period
label with the month abbreviation drawn from the explicit
English-to-Portuguese substitution table; in particular 2024-03-15 yields
`"2024-03 (Mar)"`. -/
theorem c4_period_label (s : String) (d : Date) (h : parseDate s = some d) :
    mesAnoLabel d =
      ⟨pad4 d.year ++ ('-' :: (pad2 d.month ++ (' ' :: '(' :: (mesAbbrevPt d.month ++ [')']))))⟩ ∧
    mesAnoLabel ⟨2024, 3, 15⟩ = "2024-03 (Mar)" := by
  obtain ⟨h1, h2⟩ := parseDate_month_bounds h
  constructor
  · exact congrArg String.mk (mesAnoChars_eq d h1 h2)
  · decide

/-- Witness for C4 at the concrete date 2024-03-15. -/
theorem c4_period_label_witness :
    mesAnoLabel ⟨2024, 3, 15⟩ =
      ⟨pad4 2024 ++ ('-' :: (pad2 3 ++ (' ' :: '(' :: (mesAbbrevPt 3 ++ [')']))))⟩ ∧
    mesAnoLabel ⟨2024, 3, 15⟩ = "2024-03 (Mar)" :=
  c4_period_label "2024-03-15" ⟨2024, 3, 15⟩ (by decide)

/-- C7: deleting an existing snapshot succeeds and removes it, a second
delete of that name reports not-found, and so does deleting any name the
store does not hold — a recoverable error, not a crash. -/
theorem c7_delete_twice :
    (∀ (files : List (String × Snapshot)) (nome : String),
      readSnapshot (some files) nome ≠ none →
        deleteSnapshot (some files) nome =
          .ok (some (files.filter (fun pr => !(pr.1 == nome)))) ∧
        readSnapshot (some (files.filter (fun pr => !(pr.1 == nome)))) nome = none ∧
        deleteSnapshot (some (files.filter (fun pr => !(pr.1 == nome)))) nome = .notFound) ∧
    (∀ (s : Store) (nome : String), readSnapshot s nome = none →
      deleteSnapshot s nome = .notFound) := by
  have hfiltered : ∀ (files : List (String × Snapshot)) (nome : String),
      (files.filter (fun pr => !(pr.1 == nome))).any (fun pr => pr.1 == nome) = false := by
    intro files nome
    rw [Bool.eq_false_iff]
    intro hany
    obtain ⟨x, hx, hpx⟩ := List.any_eq_true.mp hany
    have h2 := (List.mem_filter.mp hx).2
    rw [hpx] at h2
    simp at h2
  constructor
  · intro files nome h
    have hfind : files.find? (fun pr => pr.1 == nome) ≠ none := by
      intro hn
      exact h (by simp [readSnapshot, hn])
    obtain ⟨x, hx⟩ := Option.ne_none_iff_exists'.mp hfind
    have hpx := List.find?_some hx
    have hany : files.any (fun pr => pr.1 == nome) = true :=
      List.any_eq_true.mpr ⟨x, List.mem_of_find?_eq_some hx, hpx⟩
    refine ⟨by simp [deleteSnapshot, hany], ?_, ?_⟩
    · simp only [readSnapshot, Option.map_eq_none']
      rw [List.find?_eq_none]
      intro y hy
      have h2 := (List.mem_filter.mp hy).2
      simp only [Bool.not_eq_true'] at h2
      simp [h2]
    · simp [deleteSnapshot, hfiltered files nome]
  · intro s nome h
    cases s with
    | none => rfl
    | some files =>
      simp only [readSnapshot, Option.map_eq_none'] at h
      have hany : files.any (fun pr => pr.1 == nome) = false := by
        rw [Bool.eq_false_iff]
        intro hany
        obtain ⟨x, hx, hpx⟩ := List.any_eq_true.mp hany
        rw [List.find?_eq_none] at h
        exact absurd hpx (h x hx)
      simp [deleteSnapshot, hany]

/-- A store holding the single snapshot "march". -/
def demoFilesMarch : List (String × Snapshot) := [("march", ⟨[], []⟩)]

/-- Witness for C7: delete "march" twice against a concrete store, and
delete a name absent from another store. -/
theorem c7_delete_twice_witness :
    (deleteSnapshot (some demoFilesMarch) "march" =
      .ok (some (demoFilesMarch.filter (fun pr => !(pr.1 == "march")))) ∧
    readSnapshot (some (demoFilesMarch.filter (fun pr => !(pr.1 == "march")))) "march" = none ∧
    deleteSnapshot (some (demoFilesMarch.filter (fun pr => !(pr.1 == "march")))) "march" =
      .notFound) ∧
    deleteSnapshot (some ([] : List (String × Snapshot))) "march" = .notFound :=
  ⟨c7_delete_twice.1 demoFilesMarch "march" (by decide),
   c7_delete_twice.2 (some []) "march" rfl⟩

/-- C9: selecting the sentinel in all three dimensions returns the snapshot
unchanged, and in general each dimension constrains rows to membership in
its selection set, the three constraints combined conjunctively. -/
theorem c9_filter_semantics (rows : List Registro) (cats : List String) (stat : String)
    (ccs : List String) (r : Registro) :
    df_filtrado rows ["Todas"] "Todos" ["Todos"] = rows ∧
    (r ∈ df_filtrado rows cats stat ccs ↔ r ∈ rows ∧
      ("Todas" ∈ cats ∨ r.categoria ∈ cats) ∧
      (stat = "Todos" ∨ r.status = stat) ∧
      ("Todos" ∈ ccs ∨ r.centro_custo ∈ ccs)) := by
  have hmem : ∀ (P : Prop) (hd : Decidable P) (f : Registro → Bool) (l : List Registro),
      (r ∈ if P then l else l.filter f) ↔ r ∈ l ∧ (P ∨ f r = true) := by
    intro P hd f l
    split
    · rename_i hp
      simp [hp]
    · rw [List.mem_filter]
      tauto
  constructor
  · simp [df_filtrado]
  · simp only [df_filtrado]
    rw [hmem, hmem, hmem]
    simp only [List.contains, List.elem_iff, beq_iff_eq]
    tauto

/-- C10 (implicit): an amount string that uses a dot as its decimal
separator parses to the number formed by deleting every dot, because all
dots are removed as thousands separators before numeric conversion; in
particular "1234.56" parses to 123456, not 1234.56. -/
theorem c10_dot_decimal (a b : List Char) (ha : ∀ c ∈ a, c.isDigit = true)
    (hb : ∀ c ∈ b, c.isDigit = true) (hne : a ++ b ≠ []) :
    parseValor ⟨a ++ '.' :: b⟩ = (digitsToNat (a ++ b) : ℚ) ∧
    parseValor "1234.56" = 123456 ∧ parseValor "1234.56" ≠ 1234.56 := by
  have hdigit_ne : ∀ (q : Char), q.isDigit = false →
      ∀ c, c.isDigit = true → (q == c) = false := by
    intro q hq c hc
    rw [beq_eq_false_iff_ne]
    intro h
    subst h
    rw [hc] at hq
    exact Bool.false_ne_true hq.symm
  have hab : ∀ c ∈ a ++ b, c.isDigit = true := by
    intro c hc
    rcases List.mem_append.mp hc with hc | hc
    · exact ha c hc
    · exact hb c hc
  have habd : ∀ c ∈ a ++ '.' :: b, ('R' == c) = false := by
    intro c hc
    rcases List.mem_append.mp hc with hc | hc
    · exact hdigit_ne 'R' (by decide) c (ha c hc)
    · rcases List.mem_cons.mp hc with rfl | hc
      · decide
      · exact hdigit_ne 'R' (by decide) c (hb c hc)
  refine ⟨?_, ?_, ?_⟩
  · show (parseDecimalChars (limpaValorChars (a ++ '.' :: b))).getD 0 = _
    rw [show limpaValorChars (a ++ '.' :: b) = a ++ b from ?_]
    · rw [parseDecimalChars_digits hne hab]
      norm_num [decValue]
    · unfold limpaValorChars
      rw [replaceL_skip_all _ habd,
        replaceL_dot a b (fun c hc => hdigit_ne '.' (by decide) c (ha c hc))
          (fun c hc => hdigit_ne '.' (by decide) c (hb c hc)),
        replaceL_skip_all _ (fun c hc => hdigit_ne ',' (by decide) c (hab c hc)),
        stripChars_eq_self]
      intro c hc
      have h2 := hab c hc
      by_contra hw
      rw [Bool.not_eq_false] at hw
      simp only [Char.isWhitespace, Bool.or_eq_true, decide_eq_true_eq] at hw
      rcases hw with ((rfl | rfl) | rfl) | rfl <;> exact absurd h2 (by decide)
  · have h : parseValor "1234.56" = decValue 1 123456 0 0 := rfl
    rw [h]
    norm_num [decValue]
  · have h : parseValor "1234.56" = decValue 1 123456 0 0 := rfl
    rw [h]
    norm_num [decValue]

/-- Witness for C10 at the concrete split "1234" / "56". -/
theorem c10_dot_decimal_witness :
    parseValor ⟨"1234".toList ++ '.' :: "56".toList⟩ =
      (digitsToNat ("1234".toList ++ "56".toList) : ℚ) :=
  (c10_dot_decimal "1234".toList "56".toList (by decide) (by decide) (by decide)).1

/-- C8: the top-10 category aggregation returns at most ten groups — exactly
ten whenever at least ten distinct categories exist — every returned group
is a group of the category aggregation, and every returned group's total is
at least every excluded group's total. -/
theorem c8_top10_categories (rows : List Registro) :
    (top_categorias rows).length ≤ 10 ∧
    (10 ≤ (groupbySum (fun r => r.categoria) rows).length →
      (top_categorias rows).length = 10) ∧
    (∀ x ∈ top_categorias rows, x ∈ groupbySum (fun r => r.categoria) rows) ∧
    (∀ x ∈ top_categorias rows, ∀ y ∈ groupbySum (fun r => r.categoria) rows,
      y ∉ top_categorias rows → y.2 ≤ x.2) := by
  haveI htotal : IsTotal (String × ℚ) (fun a b => b.2 ≤ a.2) := ⟨fun a b => le_total b.2 a.2⟩
  haveI htrans : IsTrans (String × ℚ) (fun a b => b.2 ≤ a.2) :=
    ⟨fun _ _ _ hab hbc => le_trans hbc hab⟩
  have hperm : List.Perm
      ((groupbySum (fun r => r.categoria) rows).insertionSort (fun a b => b.2 ≤ a.2))
      (groupbySum (fun r => r.categoria) rows) :=
    List.perm_insertionSort _ _
  have hsorted : List.Sorted (fun a b : String × ℚ => b.2 ≤ a.2)
      ((groupbySum (fun r => r.categoria) rows).insertionSort (fun a b => b.2 ≤ a.2)) :=
    List.sorted_insertionSort _ _
  refine ⟨?_, ?_, ?_, ?_⟩
  · simp only [top_categorias, List.length_take]
    exact Nat.min_le_left _ _
  · intro hlen
    simp only [top_categorias, List.length_take]
    rw [hperm.length_eq]
    exact Nat.min_eq_left hlen
  · intro x hx
    exact hperm.mem_iff.mp (List.mem_of_mem_take hx)
  · intro x hx y hy hny
    have hys : y ∈ (groupbySum (fun r => r.categoria) rows).insertionSort
        (fun a b => b.2 ≤ a.2) := hperm.mem_iff.mpr hy
    rw [← List.take_append_drop 10 ((groupbySum (fun r => r.categoria) rows).insertionSort
      (fun a b => b.2 ≤ a.2))] at hys hsorted
    obtain ⟨-, -, hcross⟩ := List.pairwise_append.mp hsorted
    rcases List.mem_append.mp hys with hyt | hyd
    · exact absurd hyt hny
    · exact hcross x hx y hyd

/-- A record carrying only a category and an amount, as the aggregation
reads it. -/
def mkDemoReg (cat : String) (v : ℚ) : Registro :=
  ⟨none, "", "", "", cat, "", "", v, v, none⟩

/-- Eleven rows with distinct categories and descending amounts. -/
def demoRowsC8 : List Registro :=
  [mkDemoReg "c01" 11, mkDemoReg "c02" 10, mkDemoReg "c03" 9, mkDemoReg "c04" 8,
   mkDemoReg "c05" 7, mkDemoReg "c06" 6, mkDemoReg "c07" 5, mkDemoReg "c08" 4,
   mkDemoReg "c09" 3, mkDemoReg "c10" 2, mkDemoReg "c11" 1]

/-- The category aggregation over the demonstration rows. -/
theorem groupbySum_demoRowsC8 :
    groupbySum (fun r => r.categoria) demoRowsC8 =
      [("c01", (11 : ℚ)), ("c02", 10), ("c03", 9), ("c04", 8), ("c05", 7), ("c06", 6),
       ("c07", 5), ("c08", 4), ("c09", 3), ("c10", 2), ("c11", 1)] := by
  norm_num [groupbySum, chavesOrdenadas, somaPor, demoRowsC8, mkDemoReg,
    List.insertionSort, List.orderedInsert, List.foldl, List.filter, List.map]

/-- The truncated top-10 over the demonstration rows: `"c11"` is excluded. -/
theorem top_categorias_demoRowsC8 :
    top_categorias demoRowsC8 =
      [("c01", (11 : ℚ)), ("c02", 10), ("c03", 9), ("c04", 8), ("c05", 7), ("c06", 6),
       ("c07", 5), ("c08", 4), ("c09", 3), ("c10", 2)] := by
  norm_num [top_categorias, groupbySum, chavesOrdenadas, somaPor, demoRowsC8, mkDemoReg,
    List.insertionSort, List.orderedInsert, List.foldl, List.filter, List.map, List.take]

/-- Witness for C8 over eleven distinct categories: ten groups survive, the
top group is a real group, and the excluded group's total is dominated. -/
theorem c8_top10_categories_witness :
    (top_categorias demoRowsC8).length ≤ 10 ∧
    (top_categorias demoRowsC8).length = 10 ∧
    ("c01", (11 : ℚ)) ∈ groupbySum (fun r => r.categoria) demoRowsC8 ∧
    (("c11", (1 : ℚ)).2 ≤ (("c01", (11 : ℚ)).2)) := by
  have hthm := c8_top10_categories demoRowsC8
  have hx : ("c01", (11 : ℚ)) ∈ top_categorias demoRowsC8 := by
    rw [top_categorias_demoRowsC8]
    exact List.mem_cons_self _ _
  have hy : ("c11", (1 : ℚ)) ∈ groupbySum (fun r => r.categoria) demoRowsC8 := by
    rw [groupbySum_demoRowsC8]
    simp
  have hny : ("c11", (1 : ℚ)) ∉ top_categorias demoRowsC8 := by
    rw [top_categorias_demoRowsC8]
    simp
  refine ⟨hthm.1, hthm.2.1 ?_, hthm.2.2.1 _ hx, hthm.2.2.2 _ hx _ hy hny⟩
  rw [groupbySum_demoRowsC8]
  simp

end Dashboard
